import Mathlib

/-!
# IniParser facade (`deps/first/IniParser/src/Ini.cpp`)

A shallow embedding of `RC::Ini::Parser`: the section map, the
`m_parsing_is_complete` flag, `get_value`, the list accessors, the eight typed
accessors and the token-identifier table handed to the tokenizer.

Conventions of the embedding:

* a C++ exception `std::runtime_error{msg}` is `Except.error msg`; a function
  that contains a `throw`, or calls one that does, returns `Except String _`;
* `std::optional<std::reference_wrapper<const Value>>` is `Option V`;
* the maps `m_sections` and `Section::key_value_pairs` are association lists
  and `map.find(k)` is the lookup of the entry stored under `k`;
* the class `Value` is declared outside the translated sources, so its
  operations are taken as a parameter (`ValueApi`).
-/

set_option autoImplicit false

namespace Ini

/-! ## Data model -/

/-- The text type `File::StringType`. -/
abbrev StringType := String

/-- The argument `CanThrow` of `Parser::get_value`. -/
inductive CanThrow where
  | Yes
  | No
  deriving DecidableEq, Repr

/-- Lookup `map.find(key)` on a map kept as an association list: the value of
the entry stored under `key`, or `none` for `map.end()`. -/
def map_find {β : Type} : List (StringType × β) → StringType → Option β
  | [], _ => none
  | (k, b) :: rest, key => if k = key then some b else map_find rest key

/-- The keys of a map. -/
def map_keys {β : Type} (m : List (StringType × β)) : List StringType :=
  m.map Prod.fst

/-- The struct `Section`, with the one field the facade reads. -/
structure Section (V : Type) where
  key_value_pairs : List (StringType × V)

/-- The class `RC::Ini::List`: a handle holding the pointer `m_section`, which
is null (`none`) or points at a section of the map. -/
structure IniList (V : Type) where
  m_section : Option (Section V)

/-- The data members of `RC::Ini::Parser`. -/
structure Parser (V : Type) where
  m_sections : List (StringType × Section V)
  m_parsing_is_complete : Bool

/-- Modelled from the spec: the member initialisers of `Parser` are declared in
`Ini.hpp`, outside the translated sources; the spec has the document
"constructed empty" with the completion flag starting at false. -/
def Parser.constructed (V : Type) : Parser V :=
  ⟨[], false⟩

/-- Unique keys, as the map types guarantee: no section name occurs twice in
`m_sections` and no key occurs twice within one section. -/
def Parser.unique_keys {V : Type} (p : Parser V) : Prop :=
  (map_keys p.m_sections).Nodup ∧
    ∀ e ∈ p.m_sections, (map_keys e.2.key_value_pairs).Nodup

instance {V : Type} (p : Parser V) : Decidable p.unique_keys := by
  unfold Parser.unique_keys
  exact inferInstance

/-! ## `Parser::get_value` -/

/-- The message `get_value` throws when called before parsing completed. -/
def msg_not_yet_parsed : String :=
  "Call to Ini::get_value before parsing completed"

/-- `Parser::get_value(section, key, can_throw)`. -/
def Parser.get_value {V : Type} (p : Parser V) (section_name key : StringType)
    (can_throw : CanThrow) : Except String (Option V) :=
  if !p.m_parsing_is_complete then
    if can_throw = CanThrow.Yes then
      Except.error msg_not_yet_parsed
    else
      Except.ok none
  else
    match map_find p.m_sections section_name with
    | none => Except.ok none
    | some sec =>
      match map_find sec.key_value_pairs key with
      | none => Except.ok none
      | some value => Except.ok (some value)

/-! ## The interface of `Value` -/

/-- The operations of the class `Value` that the typed accessors call. `Value`
is declared in `Value.hpp`, outside the translated sources, so its operations
are a parameter of the embedding: `V` is the type of values, `F` the type of
`float`. Every accessor reaches the predicates and conversions through
`value.get_ref()`, which the code dereferences unconditionally. The operations
are total functions: the facade calls a conversion only after its predicate
returned true, and the predicates themselves do not throw. -/
structure ValueApi (V F : Type) where
  get_ref : V → V
  is_valid_string : V → Bool
  get_string_value : V → StringType
  is_valid_int64 : V → Bool
  get_int64_value : V → Int
  is_valid_float : V → Bool
  get_float_value : V → F
  is_valid_bool : V → Bool
  get_bool_value : V → Bool

/-- A concrete `Value` on which the accessors can be evaluated: the raw text
together with the outcome of each conversion, `none` where the text is not
valid for the type. -/
structure TextValue where
  raw : StringType
  as_int64 : Option Int
  as_float : Option Rat
  as_bool : Option Bool
  deriving DecidableEq, Repr

/-- The operations of `Value` on a `TextValue`; a value refers to itself. -/
def textValueApi : ValueApi TextValue Rat where
  get_ref := fun v => v
  is_valid_string := fun _ => true
  get_string_value := fun v => v.raw
  is_valid_int64 := fun v => v.as_int64.isSome
  get_int64_value := fun v => v.as_int64.getD 0
  is_valid_float := fun v => v.as_float.isSome
  get_float_value := fun v => v.as_float.getD 0
  is_valid_bool := fun v => v.as_bool.isSome
  get_bool_value := fun v => v.as_bool.getD false

/-- The document of the text "[A]", "x=1", "y=hello", "z=true", one per line,
once parsed. -/
def sampleDocument : Parser TextValue :=
  ⟨[("A", ⟨[("x", ⟨"1", some 1, some 1, none⟩),
            ("y", ⟨"hello", none, none, none⟩),
            ("z", ⟨"true", none, none, some true⟩)]⟩)], true⟩

/-! ## List accessors -/

/-- `Parser::get_list(section)`. -/
def Parser.get_list {V : Type} (p : Parser V) (section_name : StringType) : IniList V :=
  match map_find p.m_sections section_name with
  | none => IniList.mk none
  | some sec => IniList.mk (some sec)

/-- `Parser::get_ordered_list(section)`. -/
def Parser.get_ordered_list {V : Type} (p : Parser V) (section_name : StringType) :
    IniList V :=
  p.get_list section_name

/-! ## Typed accessors

Each type has a defaulting form (three arguments, `noexcept`) and a throwing
form (two arguments); the overloads are told apart here by the suffix
`_default`. -/

/-- Modelled from the spec: the throwing accessors call `get_value(section,
key)` and leave `can_throw` to its default argument, which is declared in
`Ini.hpp`, outside the translated sources; the spec has every throwing
accessor raise the not-yet-parsed error before `parse`, so the default is
`CanThrow::Yes`. -/
def get_value_default_can_throw : CanThrow :=
  CanThrow.Yes

/-- Message of the throwing `get_string` when the value is absent. -/
def msg_get_string_not_found : String :=
  "[Ini::get_string] Tried getting value of type 'String' but the value didn't exist."

/-- Message of the throwing `get_string` when the value is not a string. -/
def msg_get_string_mismatch : String :=
  "[Ini::get_string] Tried getting value of type 'String' but the variable cannot be interpreted as 'String'"

/-- Message of the throwing `get_int64` when the value is absent. -/
def msg_get_int64_not_found : String :=
  "[Ini::get_int64] Tried getting value of type 'Int64' but the value didn't exist."

/-- Message of the throwing `get_int64` when the value is not an integer. -/
def msg_get_int64_mismatch : String :=
  "[Ini::get_int64] Tried getting value of type 'Int64' but the variable cannot be interpreted as 'Int64'"

/-- Message of the throwing `get_float` when the value is absent. -/
def msg_get_float_not_found : String :=
  "[Ini::get_float] Tried getting value of type 'Float' but the value didn't exist."

/-- Message of the throwing `get_float` when the value is not a float. -/
def msg_get_float_mismatch : String :=
  "[Ini::get_float] Tried getting value of type 'Float' but the variable cannot be interpreted as 'Float'"

/-- Message of the throwing `get_bool` when the value is absent. -/
def msg_get_bool_not_found : String :=
  "[Ini::get_int64] Tried getting value of type 'Bool' but the value didn't exist."

/-- Message of the throwing `get_bool` when the value is not a boolean. -/
def msg_get_bool_mismatch : String :=
  "[Ini::get_bool] Tried getting value of type 'Bool' but the variable cannot be interpreted as 'Bool'"

/-- `Parser::get_string(section, key, default_value)`. -/
def Parser.get_string_default {V F : Type} (api : ValueApi V F) (p : Parser V)
    (section_name key : StringType) (default_value : StringType) :
    Except String StringType := do
  let maybe_value ← p.get_value section_name key CanThrow.No
  match maybe_value with
  | none => pure default_value
  | some value =>
    if !api.is_valid_string (api.get_ref value) then
      pure default_value
    else
      pure (api.get_string_value (api.get_ref value))

/-- `Parser::get_string(section, key)`. -/
def Parser.get_string {V F : Type} (api : ValueApi V F) (p : Parser V)
    (section_name key : StringType) : Except String StringType := do
  let maybe_value ← p.get_value section_name key get_value_default_can_throw
  match maybe_value with
  | none => throw msg_get_string_not_found
  | some value =>
    if !api.is_valid_string (api.get_ref value) then
      throw msg_get_string_mismatch
    else
      pure (api.get_string_value (api.get_ref value))

/-- `Parser::get_int64(section, key, default_value)`. -/
def Parser.get_int64_default {V F : Type} (api : ValueApi V F) (p : Parser V)
    (section_name key : StringType) (default_value : Int) : Except String Int := do
  let maybe_value ← p.get_value section_name key CanThrow.No
  match maybe_value with
  | none => pure default_value
  | some value =>
    if !api.is_valid_int64 (api.get_ref value) then
      pure default_value
    else
      pure (api.get_int64_value (api.get_ref value))

/-- `Parser::get_int64(section, key)`. -/
def Parser.get_int64 {V F : Type} (api : ValueApi V F) (p : Parser V)
    (section_name key : StringType) : Except String Int := do
  let maybe_value ← p.get_value section_name key get_value_default_can_throw
  match maybe_value with
  | none => throw msg_get_int64_not_found
  | some value =>
    if !api.is_valid_int64 (api.get_ref value) then
      throw msg_get_int64_mismatch
    else
      pure (api.get_int64_value (api.get_ref value))

/-- `Parser::get_float(section, key, default_value)`. -/
def Parser.get_float_default {V F : Type} (api : ValueApi V F) (p : Parser V)
    (section_name key : StringType) (default_value : F) : Except String F := do
  let maybe_value ← p.get_value section_name key CanThrow.No
  match maybe_value with
  | none => pure default_value
  | some value =>
    if !api.is_valid_float (api.get_ref value) then
      pure default_value
    else
      pure (api.get_float_value (api.get_ref value))

/-- `Parser::get_float(section, key)`. -/
def Parser.get_float {V F : Type} (api : ValueApi V F) (p : Parser V)
    (section_name key : StringType) : Except String F := do
  let maybe_value ← p.get_value section_name key get_value_default_can_throw
  match maybe_value with
  | none => throw msg_get_float_not_found
  | some value =>
    if !api.is_valid_float (api.get_ref value) then
      throw msg_get_float_mismatch
    else
      pure (api.get_float_value (api.get_ref value))

/-- `Parser::get_bool(section, key, default_value)`. -/
def Parser.get_bool_default {V F : Type} (api : ValueApi V F) (p : Parser V)
    (section_name key : StringType) (default_value : Bool) : Except String Bool := do
  let maybe_value ← p.get_value section_name key CanThrow.No
  match maybe_value with
  | none => pure default_value
  | some value =>
    if !api.is_valid_bool (api.get_ref value) then
      pure default_value
    else
      pure (api.get_bool_value (api.get_ref value))

/-- `Parser::get_bool(section, key)`. -/
def Parser.get_bool {V F : Type} (api : ValueApi V F) (p : Parser V)
    (section_name key : StringType) : Except String Bool := do
  let maybe_value ← p.get_value section_name key get_value_default_can_throw
  match maybe_value with
  | none => throw msg_get_bool_not_found
  | some value =>
    if !api.is_valid_bool (api.get_ref value) then
      throw msg_get_bool_mismatch
    else
      pure (api.get_bool_value (api.get_ref value))

/-! ## The token-identifier table -/

/-- The enumeration `IniTokenType` of `Tokens.hpp`. -/
inductive IniTokenType where
  | CarriageReturn
  | NewLine
  | Space
  | Characters
  | Equals
  | ClosingSquareBracket
  | OpeningSquareBracket
  | SemiColon
  | EndOfFile
  deriving DecidableEq, Repr

/-- The flag `ParserBase::Token::HasData`. -/
inductive HasData where
  | Yes
  | No
  deriving DecidableEq, Repr

/-- A token identifier as `ParserBase::Token::create` receives it: the type,
the display name, the pattern matched in the input and the data flag. -/
structure Token where
  m_type : IniTokenType
  m_name : StringType
  m_identifier : StringType
  m_has_data : HasData
  deriving DecidableEq, Repr

/-- Modelled from the spec: `ParserBase::Token::create` is declared outside the
translated sources and seven of the eight calls leave its fourth argument to
the default; the spec has every identifier but `Characters` "produce a token
with no captured data", so the default is `HasData::No`. -/
def Token.create_default_has_data : HasData :=
  HasData.No

/-- `ParserBase::Token::create(type, name, identifier, has_data)`. -/
def Token.create (type : IniTokenType) (name identifier : StringType)
    (has_data : HasData) : Token :=
  ⟨type, name, identifier, has_data⟩

/-- The class `ParserBase::TokenContainer`: the identifiers in the order they
were added, and the end-of-file token type once it has been set. -/
structure TokenContainer where
  m_tokens : List Token
  m_eof_token : Option IniTokenType
  deriving DecidableEq, Repr

/-- A default-constructed `TokenContainer`. -/
def TokenContainer.empty : TokenContainer :=
  ⟨[], none⟩

/-- `TokenContainer::add(token)`: the identifier goes after those already
registered. -/
def TokenContainer.add (tc : TokenContainer) (token : Token) : TokenContainer :=
  ⟨tc.m_tokens ++ [token], tc.m_eof_token⟩

/-- `TokenContainer::set_eof_token(type)`. -/
def TokenContainer.set_eof_token (tc : TokenContainer) (type : IniTokenType) :
    TokenContainer :=
  ⟨tc.m_tokens, some type⟩

/-- `Parser::create_available_tokens_for_tokenizer()`. -/
def Parser.create_available_tokens_for_tokenizer : TokenContainer :=
  let tc := TokenContainer.empty
  let tc := tc.add (Token.create IniTokenType.CarriageReturn "CarriageReturn" "\r"
    Token.create_default_has_data)
  let tc := tc.add (Token.create IniTokenType.NewLine "NewLine" "\n"
    Token.create_default_has_data)
  let tc := tc.add (Token.create IniTokenType.Space "Space" " "
    Token.create_default_has_data)
  let tc := tc.add (Token.create IniTokenType.Characters "Characters" "" HasData.Yes)
  let tc := tc.add (Token.create IniTokenType.Equals "Equals" "="
    Token.create_default_has_data)
  let tc := tc.add (Token.create IniTokenType.ClosingSquareBracket "CloseSquareBracket" "]"
    Token.create_default_has_data)
  let tc := tc.add (Token.create IniTokenType.OpeningSquareBracket "OpenSquareBracket" "["
    Token.create_default_has_data)
  let tc := tc.add (Token.create IniTokenType.SemiColon "SemiColon" ";"
    Token.create_default_has_data)
  let tc := tc.set_eof_token IniTokenType.EndOfFile
  tc

/-! ## Specification-side vocabulary -/

/-- The value the section map holds under `(section, key)`, whatever the
completion flag says: the entry of `key` in the section found under
`section`, if both exist. -/
def Parser.stored_value {V : Type} (p : Parser V) (section_name key : StringType) :
    Option V :=
  match map_find p.m_sections section_name with
  | none => none
  | some sec => map_find sec.key_value_pairs key

/-- The contract of a defaulting accessor, in the spec's words: it never
raises; it returns the conversion of the stored value when parsing is
complete, the value is present and the validity predicate holds; and it
returns exactly the default when parsing is incomplete, when the section is
absent, when the key is absent from the section, or when the predicate is
false. -/
def defaulting_contract {V T : Type} (p : Parser V) (section_name key : StringType)
    (is_valid : V → Bool) (extract : V → T) (default_value : T)
    (result : Except String T) : Prop :=
  ∃ r, result = Except.ok r ∧
    (∀ value, p.m_parsing_is_complete = true →
        p.stored_value section_name key = some value →
        is_valid value = true → r = extract value) ∧
    (p.m_parsing_is_complete = false → r = default_value) ∧
    (section_name ∉ map_keys p.m_sections → r = default_value) ∧
    (∀ sec, map_find p.m_sections section_name = some sec →
        key ∉ map_keys sec.key_value_pairs → r = default_value) ∧
    (∀ value, p.stored_value section_name key = some value →
        is_valid value = false → r = default_value)

/-- The contract of a throwing accessor on a parsed document, in the spec's
words: the value-not-found error exactly when `get_value` reports absent, the
type-mismatch error exactly when the value is present and the predicate is
false, the conversion of the stored value otherwise; the two errors differ,
and whatever is returned is the conversion of a present, valid value. -/
def throwing_contract {V T : Type} (p : Parser V) (section_name key : StringType)
    (is_valid : V → Bool) (extract : V → T) (not_found mismatch : String)
    (result : Except String T) : Prop :=
  (result = Except.error not_found ↔
      p.get_value section_name key CanThrow.No = Except.ok none) ∧
    (result = Except.error mismatch ↔
      ∃ value, p.get_value section_name key CanThrow.No = Except.ok (some value) ∧
        is_valid value = false) ∧
    (∀ value, p.get_value section_name key CanThrow.No = Except.ok (some value) →
        is_valid value = true → result = Except.ok (extract value)) ∧
    not_found ≠ mismatch ∧
    (∀ r, result = Except.ok r →
      ∃ value, p.get_value section_name key CanThrow.No = Except.ok (some value) ∧
        is_valid value = true ∧ r = extract value)

/-! ## Parsing

`Parser::parse_internal` drives two classes declared outside the translated
sources, `ParserBase::Tokenizer` and `TokenParser`. Their behaviour is a
parameter of the embedding; what is translated is the order of the calls and
the assignment of `m_parsing_is_complete`. A member function that writes to
the parser returns the parser it leaves behind next to its outcome, so that
what an exception leaves behind is part of the model. -/

/-- Modelled from the spec: a token of the stream the tokenizer produces
(§3 "Token"): its kind, the literal pattern it matched, and the captured text
for a data-carrying kind. -/
structure LexToken where
  m_type : IniTokenType
  m_literal : StringType
  m_data : Option StringType
  deriving DecidableEq, Repr

/-- The two collaborators of `parse_internal`. `tokenize` stands for
`Tokenizer::set_available_tokens` followed by `Tokenizer::tokenize`, which the
spec has never fail. `token_parser_parse` stands for constructing a
`TokenParser` over the tokenizer, the input and a reference to `m_sections`
and calling `TokenParser::parse`: it reports whether that call threw, together
with the section map as the call left it, since the map is written in place. -/
structure Collaborators (V : Type) where
  tokenize : TokenContainer → StringType → List LexToken
  token_parser_parse : List LexToken → StringType → List (StringType × Section V) →
    Except String Unit × List (StringType × Section V)

/-- `Parser::parse_internal(input)`. -/
def Parser.parse_internal {V : Type} (c : Collaborators V) (p : Parser V)
    (input : StringType) : Except String Unit × Parser V :=
  let tokens := c.tokenize Parser.create_available_tokens_for_tokenizer input
  match c.token_parser_parse tokens input p.m_sections with
  | (Except.error e, sections) => (Except.error e, ⟨sections, p.m_parsing_is_complete⟩)
  | (Except.ok _, sections) => (Except.ok (), ⟨sections, true⟩)

/-- `Parser::parse(File::StringType& input)`. -/
def Parser.parse {V : Type} (c : Collaborators V) (p : Parser V) (input : StringType) :
    Except String Unit × Parser V :=
  p.parse_internal c input

/-- Modelled from the spec: `File::Handle` is an external capability that
"reads entire contents as text"; a handle is represented by what `read_all`
yields on it, the text or the exception it throws. -/
structure FileHandle where
  read_all : Except String StringType

/-- `Parser::parse(const File::Handle& file)`. -/
def Parser.parse_file {V : Type} (c : Collaborators V) (p : Parser V) (file : FileHandle) :
    Except String Unit × Parser V :=
  match file.read_all with
  | Except.error e => (Except.error e, p)
  | Except.ok input => p.parse_internal c input

/-! ## The facade as a set of operations -/

/-- The query operations of the facade with their arguments. -/
inductive Query (F : Type) where
  | get_value (section_name key : StringType) (can_throw : CanThrow)
  | get_list (section_name : StringType)
  | get_ordered_list (section_name : StringType)
  | get_string_default (section_name key : StringType) (default_value : StringType)
  | get_string (section_name key : StringType)
  | get_int64_default (section_name key : StringType) (default_value : Int)
  | get_int64 (section_name key : StringType)
  | get_float_default (section_name key : StringType) (default_value : F)
  | get_float (section_name key : StringType)
  | get_bool_default (section_name key : StringType) (default_value : Bool)
  | get_bool (section_name key : StringType)

/-- The operations of the facade: the two overloads of `parse` and the
queries. -/
inductive FacadeOp (F : Type) where
  | parse_text (input : StringType)
  | parse_file (file : FileHandle)
  | query (q : Query F)

/-- What a facade operation hands back when it does not throw. -/
inductive Answer (V F : Type) where
  | done
  | value (maybe_value : Option V)
  | list (handle : IniList V)
  | string (text : StringType)
  | int64 (n : Int)
  | float (x : F)
  | bool (b : Bool)

/-- A query run on a parser: its outcome and the parser afterwards. None of
the query member functions assigns to `m_sections` or `m_parsing_is_complete`
(`get_value` and the typed accessors are `const`; `get_list` only calls
`find`), so the parser afterwards is the parser before. -/
def Parser.run_query {V F : Type} (api : ValueApi V F) (p : Parser V) :
    Query F → Except String (Answer V F) × Parser V
  | Query.get_value s k can_throw => ((p.get_value s k can_throw).map Answer.value, p)
  | Query.get_list s => (Except.ok (Answer.list (p.get_list s)), p)
  | Query.get_ordered_list s => (Except.ok (Answer.list (p.get_ordered_list s)), p)
  | Query.get_string_default s k d => ((p.get_string_default api s k d).map Answer.string, p)
  | Query.get_string s k => ((p.get_string api s k).map Answer.string, p)
  | Query.get_int64_default s k d => ((p.get_int64_default api s k d).map Answer.int64, p)
  | Query.get_int64 s k => ((p.get_int64 api s k).map Answer.int64, p)
  | Query.get_float_default s k d => ((p.get_float_default api s k d).map Answer.float, p)
  | Query.get_float s k => ((p.get_float api s k).map Answer.float, p)
  | Query.get_bool_default s k d => ((p.get_bool_default api s k d).map Answer.bool, p)
  | Query.get_bool s k => ((p.get_bool api s k).map Answer.bool, p)

/-- One facade operation run on a parser: its outcome and the parser
afterwards. -/
def Parser.exec {V F : Type} (c : Collaborators V) (api : ValueApi V F) (p : Parser V) :
    FacadeOp F → Except String (Answer V F) × Parser V
  | FacadeOp.parse_text input =>
    ((p.parse c input).1.map (fun _ => Answer.done), (p.parse c input).2)
  | FacadeOp.parse_file file =>
    ((p.parse_file c file).1.map (fun _ => Answer.done), (p.parse_file c file).2)
  | FacadeOp.query q => p.run_query api q

/-- A sequence of facade operations run one after the other, each on the
parser the previous one left, whether it threw or not; the result is the
parser after the last one. -/
def Parser.exec_all {V F : Type} (c : Collaborators V) (api : ValueApi V F) :
    Parser V → List (FacadeOp F) → Parser V
  | p, [] => p
  | p, op :: ops => Parser.exec_all c api (p.exec c api op).2 ops

/-! ## The collaborators as the spec describes them

Concrete collaborators, on which `parse` can be evaluated. Values are kept as
their raw text. -/

/-- Modelled from the spec: the identifier matching one input character
(§4.1), the first in registration order whose pattern is that character. -/
def Tokenizer.identifier_at (tc : TokenContainer) (ch : Char) : Option Token :=
  tc.m_tokens.find? (fun token => decide (token.m_identifier = String.singleton ch))

/-- Modelled from the spec: the token for a pending run of characters that no
identifier matched (§4.1): one token of the catch-all identifier, the one with
the empty pattern, carrying the run as captured data; nothing for an empty
run. The run is held in reverse. -/
def Tokenizer.flush (tc : TokenContainer) (run : List Char) : List LexToken :=
  match run, tc.m_tokens.find? (fun token => decide (token.m_identifier = "")) with
  | [], _ => []
  | _ :: _, none => []
  | _ :: _, some catch_all => [⟨catch_all.m_type, "", some (String.mk run.reverse)⟩]

/-- Modelled from the spec: the left-to-right scan of §4.1. A character that an
identifier matches ends the pending run and gives a token of that identifier,
with no data; any other character extends the run; after the last character
the run is flushed and the end-of-file token is appended. -/
def Tokenizer.scan (tc : TokenContainer) : List Char → List Char → List LexToken
  | [], run =>
    Tokenizer.flush tc run ++
      (match tc.m_eof_token with
        | none => []
        | some eof => [⟨eof, "", none⟩])
  | ch :: rest, run =>
    match Tokenizer.identifier_at tc ch with
    | some token =>
      Tokenizer.flush tc run ++ ⟨token.m_type, token.m_identifier, none⟩ ::
        Tokenizer.scan tc rest []
    | none => Tokenizer.scan tc rest (ch :: run)

/-- Modelled from the spec: `tokenize(input)` of §4.1. -/
def Tokenizer.tokenize (tc : TokenContainer) (input : StringType) : List LexToken :=
  Tokenizer.scan tc input.toList []

/-- The text of the input a token covers. -/
def LexToken.text (token : LexToken) : StringType :=
  token.m_data.getD token.m_literal

/-- Insertion into a map kept as an association list: the value under an
existing key is replaced in place, a new key goes last. -/
def map_insert {β : Type} : List (StringType × β) → StringType → β → List (StringType × β)
  | [], key, b => [(key, b)]
  | (k, old) :: rest, key, b =>
    if k = key then (k, b) :: rest else (k, old) :: map_insert rest key b

/-- The error of the structural parser. -/
def msg_malformed_syntax : String :=
  "MalformedSyntax"

/-- The kinds of line of the grammar of §4.2. -/
inductive IniLine where
  | blank
  | header (name : StringType)
  | pair (key value : StringType)
  | malformed
  deriving DecidableEq, Repr

/-- Modelled from the spec: the token stream cut into lines (§4.2): a
`CarriageReturn` or `NewLine` token ends the current line and the `EndOfFile`
token ends the last one. The current line is held in reverse. -/
def TokenParser.split_lines : List LexToken → List LexToken → List (List LexToken)
  | [], line => [line.reverse]
  | token :: rest, line =>
    match token.m_type with
    | IniTokenType.CarriageReturn => line.reverse :: TokenParser.split_lines rest []
    | IniTokenType.NewLine => line.reverse :: TokenParser.split_lines rest []
    | IniTokenType.EndOfFile => [line.reverse]
    | _ => TokenParser.split_lines rest (token :: line)

/-- A line without its leading and trailing `Space` tokens. -/
def TokenParser.trim (line : List LexToken) : List LexToken :=
  ((line.dropWhile (fun token => decide (token.m_type = IniTokenType.Space))).reverse.dropWhile
    (fun token => decide (token.m_type = IniTokenType.Space))).reverse

/-- Modelled from the spec: one line read against the grammar of §4.2. A `;`
starts a comment that runs to the end of the line; a line of spaces only is
blank; `[` name `]`, spaces around the name ignored, is a header; a
`Characters` token followed by `=` is a key with the rest of the line, trimmed
of surrounding spaces, as the raw text of its value; anything else is
malformed, as are `=` without a key and `[` without its `]`. -/
def TokenParser.classify (line : List LexToken) : IniLine :=
  match TokenParser.trim
      (line.takeWhile (fun token => decide (token.m_type ≠ IniTokenType.SemiColon))) with
  | [] => IniLine.blank
  | first :: rest =>
    match first.m_type with
    | IniTokenType.OpeningSquareBracket =>
      match rest.filter (fun token => decide (token.m_type ≠ IniTokenType.Space)) with
      | [name, close] =>
        if name.m_type = IniTokenType.Characters ∧
            close.m_type = IniTokenType.ClosingSquareBracket then
          IniLine.header name.text
        else
          IniLine.malformed
      | _ => IniLine.malformed
    | IniTokenType.Characters =>
      match rest.dropWhile (fun token => decide (token.m_type = IniTokenType.Space)) with
      | [] => IniLine.malformed
      | equals :: value_tokens =>
        if equals.m_type = IniTokenType.Equals then
          IniLine.pair first.text
            (String.join ((TokenParser.trim value_tokens).map LexToken.text))
        else
          IniLine.malformed
    | _ => IniLine.malformed

/-- Modelled from the spec: the lines folded into the section map (§4.2). A
header opens its section, or continues it when the name was seen before; a
pair is stored in the current section, a later value for the same key
replacing the earlier one; a pair before any header and a malformed line fail
with `MalformedSyntax`, and the map keeps what the earlier lines wrote. -/
def TokenParser.run {V : Type} (make_value : StringType → V) :
    List (List LexToken) → Option StringType → List (StringType × Section V) →
      Except String Unit × List (StringType × Section V)
  | [], _, sections => (Except.ok (), sections)
  | line :: rest, current, sections =>
    match TokenParser.classify line, current with
    | IniLine.blank, _ => TokenParser.run make_value rest current sections
    | IniLine.header name, _ =>
      match map_find sections name with
      | some _ => TokenParser.run make_value rest (some name) sections
      | none =>
        TokenParser.run make_value rest (some name) (map_insert sections name ⟨[]⟩)
    | IniLine.pair _ _, none => (Except.error msg_malformed_syntax, sections)
    | IniLine.pair key value, some name =>
      match map_find sections name with
      | none => (Except.error msg_malformed_syntax, sections)
      | some sec =>
        TokenParser.run make_value rest current
          (map_insert sections name ⟨map_insert sec.key_value_pairs key (make_value value)⟩)
    | IniLine.malformed, _ => (Except.error msg_malformed_syntax, sections)

/-- Modelled from the spec: the tokenizer of §4.1 and the structural parser of
§4.2, with every value kept as its raw text. -/
def specCollaborators : Collaborators StringType where
  tokenize := Tokenizer.tokenize
  token_parser_parse := fun tokens _ sections =>
    TokenParser.run (fun text => text) (TokenParser.split_lines tokens []) none sections

/-- The operations of `Value` on raw text, for the conversion to string only:
the text is always a valid string and is never taken for another type. -/
def rawTextApi : ValueApi StringType Rat where
  get_ref := fun v => v
  is_valid_string := fun _ => true
  get_string_value := fun v => v
  is_valid_int64 := fun _ => false
  get_int64_value := fun _ => 0
  is_valid_float := fun _ => false
  get_float_value := fun _ => 0
  is_valid_bool := fun _ => false
  get_bool_value := fun _ => false

/-- The defaulting form of an accessor is its throwing form with every error
replaced by the default: what the throwing form returns the defaulting form
returns for every default, and where the throwing form raises an error the
defaulting form returns exactly the default. -/
def replaces_errors_by_default {T : Type} (throwing : Except String T)
    (defaulting : T → Except String T) : Prop :=
  (∀ v, throwing = Except.ok v → ∀ d, defaulting d = Except.ok v) ∧
    (∀ e, throwing = Except.error e → ∀ d, defaulting d = Except.ok d)

/-- Whether a message begins with a tag. -/
def begins_with (tag message : String) : Bool :=
  tag.toList.isPrefixOf message.toList

/-! ## Theorems -/

/-! ### Lookup in an association-list map -/

theorem map_find_eq_none_iff {β : Type} (m : List (StringType × β)) (key : StringType) :
    map_find m key = none ↔ key ∉ map_keys m := by
  induction m with
  | nil => simp [map_find, map_keys]
  | cons e rest ih =>
    obtain ⟨k, b⟩ := e
    by_cases h : k = key
    · simp [map_find, map_keys, h]
    · have h2 : ¬ key = k := fun h3 => h h3.symm
      simpa [map_find, map_keys, h, h2] using ih

theorem mem_of_map_find {β : Type} (m : List (StringType × β)) (key : StringType) (b : β)
    (h : map_find m key = some b) : (key, b) ∈ m := by
  induction m with
  | nil => simp [map_find] at h
  | cons e rest ih =>
    obtain ⟨k, c⟩ := e
    by_cases hk : k = key
    · simp [map_find, hk] at h
      simp [hk, h]
    · simp [map_find, hk] at h
      exact List.mem_cons_of_mem _ (ih h)

theorem map_find_of_mem {β : Type} (m : List (StringType × β)) (key : StringType) (b : β)
    (hnd : (map_keys m).Nodup) (h : (key, b) ∈ m) : map_find m key = some b := by
  induction m with
  | nil => simp at h
  | cons e rest ih =>
    obtain ⟨k, c⟩ := e
    simp only [map_keys, List.map_cons, List.nodup_cons] at hnd
    rcases List.mem_cons.mp h with heq | hmem
    · cases heq
      simp [map_find]
    · have hk : k ≠ key := by
        intro hk
        apply hnd.1
        rw [hk]
        exact List.mem_map_of_mem Prod.fst hmem
      simp only [map_find, hk, if_false]
      exact ih hnd.2 hmem

theorem get_value_complete {V : Type} (p : Parser V) (section_name key : StringType)
    (can_throw : CanThrow) (h : p.m_parsing_is_complete = true) :
    p.get_value section_name key can_throw
      = Except.ok (p.stored_value section_name key) := by
  unfold Parser.get_value Parser.stored_value
  rw [h]
  cases map_find p.m_sections section_name with
  | none => rfl
  | some sec =>
    cases h2 : map_find sec.key_value_pairs key <;> simp [h2]

theorem get_value_no_throw {V : Type} (p : Parser V) (section_name key : StringType) :
    p.get_value section_name key CanThrow.No
      = Except.ok (if p.m_parsing_is_complete then p.stored_value section_name key
          else none) := by
  cases h : p.m_parsing_is_complete with
  | true => simpa using get_value_complete p section_name key CanThrow.No h
  | false => simp [Parser.get_value, h]

/-! ### The two shapes of typed accessor -/

theorem defaulting_contract_intro {V T : Type} (p : Parser V)
    (section_name key : StringType) (is_valid : V → Bool) (extract : V → T)
    (default_value : T) (result : Except String T)
    (h : result = Except.ok
      (match (if p.m_parsing_is_complete then p.stored_value section_name key else none) with
        | none => default_value
        | some value => if is_valid value then extract value else default_value)) :
    defaulting_contract p section_name key is_valid extract default_value result := by
  refine ⟨_, h, ?_, ?_, ?_, ?_, ?_⟩
  · intro value hc hs hv
    simp [hc, hs, hv]
  · intro hc
    simp [hc]
  · intro hsec
    have hnone : p.stored_value section_name key = none := by
      unfold Parser.stored_value
      rw [(map_find_eq_none_iff _ _).mpr hsec]
    simp [hnone]
  · intro sec hsec hkey
    have hnone : p.stored_value section_name key = none := by
      unfold Parser.stored_value
      rw [hsec]
      exact (map_find_eq_none_iff _ _).mpr hkey
    simp [hnone]
  · intro value hs hv
    cases hc : p.m_parsing_is_complete <;> simp [hs, hv]

theorem defaulting_shape {V T : Type} (p : Parser V) (section_name key : StringType)
    (is_valid : V → Bool) (extract : V → T) (default_value : T) :
    (do
      let maybe_value ← p.get_value section_name key CanThrow.No
      match maybe_value with
      | none => pure default_value
      | some value =>
        if !is_valid value then pure default_value else pure (extract value)
      : Except String T)
    = Except.ok
      (match (if p.m_parsing_is_complete then p.stored_value section_name key else none) with
        | none => default_value
        | some value => if is_valid value then extract value else default_value) := by
  rw [get_value_no_throw]
  cases (if p.m_parsing_is_complete then p.stored_value section_name key else none) with
  | none => rfl
  | some value =>
    cases hv : is_valid value <;> simp [bind, Except.bind, pure, Except.pure, hv]

theorem throwing_shape {V T : Type} (p : Parser V) (section_name key : StringType)
    (is_valid : V → Bool) (extract : V → T) (not_found mismatch : String)
    (h_complete : p.m_parsing_is_complete = true) (h_ne : not_found ≠ mismatch) :
    throwing_contract p section_name key is_valid extract not_found mismatch
      (do
        let maybe_value ← p.get_value section_name key get_value_default_can_throw
        match maybe_value with
        | none => throw not_found
        | some value =>
          if !is_valid value then throw mismatch else pure (extract value)) := by
  unfold throwing_contract
  rw [get_value_complete p section_name key _ h_complete,
    get_value_complete p section_name key _ h_complete]
  cases p.stored_value section_name key with
  | none =>
    simp [bind, Except.bind, throw, throwThe, MonadExceptOf.throw]
    exact h_ne
  | some value =>
    cases hv : is_valid value
    · simp [bind, Except.bind, throw, throwThe, MonadExceptOf.throw, hv]
      exact ⟨fun h => h_ne h.symm, h_ne⟩
    · simp [bind, Except.bind, throw, throwThe, MonadExceptOf.throw, pure, Except.pure, hv]
      exact h_ne

/-! ### Parsing and the completion flag -/

theorem parse_internal_outcome {V : Type} (c : Collaborators V) (p : Parser V)
    (input : StringType) :
    (∃ e, (c.token_parser_parse
          (c.tokenize Parser.create_available_tokens_for_tokenizer input) input
          p.m_sections).1 = Except.error e ∧
        (p.parse_internal c input).1 = Except.error e ∧
        (p.parse_internal c input).2.m_parsing_is_complete = p.m_parsing_is_complete) ∨
      ((c.token_parser_parse
          (c.tokenize Parser.create_available_tokens_for_tokenizer input) input
          p.m_sections).1 = Except.ok () ∧
        (p.parse_internal c input).1 = Except.ok () ∧
        (p.parse_internal c input).2.m_parsing_is_complete = true) := by
  unfold Parser.parse_internal
  dsimp only
  generalize c.token_parser_parse
      (c.tokenize Parser.create_available_tokens_for_tokenizer input) input
      p.m_sections = r
  obtain ⟨outcome, sections⟩ := r
  cases outcome with
  | error e => exact Or.inl ⟨e, rfl, rfl, rfl⟩
  | ok u => exact Or.inr ⟨rfl, rfl, rfl⟩

theorem parse_internal_keeps_complete {V : Type} (c : Collaborators V) (p : Parser V)
    (input : StringType) (h : p.m_parsing_is_complete = true) :
    (p.parse_internal c input).2.m_parsing_is_complete = true := by
  rcases parse_internal_outcome c p input with ⟨e, _, _, h2⟩ | ⟨_, _, h2⟩
  · rw [h2, h]
  · exact h2

theorem exec_keeps_complete {V F : Type} (c : Collaborators V) (api : ValueApi V F)
    (p : Parser V) (op : FacadeOp F) (h : p.m_parsing_is_complete = true) :
    (p.exec c api op).2.m_parsing_is_complete = true := by
  cases op with
  | parse_text input => exact parse_internal_keeps_complete c p input h
  | parse_file file =>
    show (p.parse_file c file).2.m_parsing_is_complete = true
    unfold Parser.parse_file
    cases file.read_all with
    | error e => exact h
    | ok input => exact parse_internal_keeps_complete c p input h
  | query q => cases q <;> exact h

theorem exec_all_keeps_complete {V F : Type} (c : Collaborators V) (api : ValueApi V F)
    (ops : List (FacadeOp F)) (p : Parser V) (h : p.m_parsing_is_complete = true) :
    (Parser.exec_all c api p ops).m_parsing_is_complete = true := by
  induction ops generalizing p with
  | nil => exact h
  | cons op rest ih => exact ih _ (exec_keeps_complete c api p op h)

theorem exec_all_append {V F : Type} (c : Collaborators V) (api : ValueApi V F)
    (ops later : List (FacadeOp F)) (p : Parser V) :
    Parser.exec_all c api p (ops ++ later)
      = Parser.exec_all c api (Parser.exec_all c api p ops) later := by
  induction ops generalizing p with
  | nil => rfl
  | cons op rest ih => exact ih _

theorem accessor_shapes_agree {V T : Type} (p : Parser V) (section_name key : StringType)
    (is_valid : V → Bool) (extract : V → T) (not_found mismatch : String) :
    replaces_errors_by_default
      (do
        let maybe_value ← p.get_value section_name key get_value_default_can_throw
        match maybe_value with
        | none => throw not_found
        | some value =>
          if !is_valid value then throw mismatch else pure (extract value))
      (fun default_value => do
        let maybe_value ← p.get_value section_name key CanThrow.No
        match maybe_value with
        | none => pure default_value
        | some value =>
          if !is_valid value then pure default_value else pure (extract value)) := by
  unfold replaces_errors_by_default
  cases hc : p.m_parsing_is_complete with
  | false =>
    simp [Parser.get_value, hc, get_value_default_can_throw, bind, Except.bind, pure,
      Except.pure]
  | true =>
    rw [get_value_complete p section_name key _ hc,
      get_value_complete p section_name key _ hc]
    cases p.stored_value section_name key with
    | none =>
      simp [bind, Except.bind, throw, throwThe, MonadExceptOf.throw, pure, Except.pure]
    | some value =>
      cases hv : is_valid value <;>
        simp [bind, Except.bind, throw, throwThe, MonadExceptOf.throw, pure, Except.pure, hv]

/-! ### Claims -/


/-- C1: while parsing is not complete, `get_value` with `CanThrow::Yes` fails
with the not-yet-parsed error and with `CanThrow::No` returns absent without
failing, for every section name and key and whatever the section map holds. -/
theorem get_value_before_parse {V : Type} (sections : List (StringType × Section V))
    (section_name key : StringType) :
    (Parser.mk sections false).get_value section_name key CanThrow.Yes
        = Except.error msg_not_yet_parsed ∧
      (Parser.mk sections false).get_value section_name key CanThrow.No
        = Except.ok none := by
  constructor <;> rfl


/-- C2: once parsing is complete, `get_value` never fails, whichever
`can_throw` is passed; it returns absent exactly when the section is not in
the section map or the key is not among that section's pairs, and otherwise
returns the value stored under `(section, key)`. The maps have unique keys, as
the C++ map types guarantee. -/
theorem get_value_after_parse {V : Type} (p : Parser V) (section_name key : StringType)
    (can_throw : CanThrow) (h_complete : p.m_parsing_is_complete = true)
    (h_unique : p.unique_keys) :
    ∃ r, p.get_value section_name key can_throw = Except.ok r ∧
      (r = none ↔
        (section_name ∉ map_keys p.m_sections ∨
          ∃ sec, (section_name, sec) ∈ p.m_sections ∧
            key ∉ map_keys sec.key_value_pairs)) ∧
      (∀ sec value, (section_name, sec) ∈ p.m_sections →
        (key, value) ∈ sec.key_value_pairs → r = some value) := by
  refine ⟨p.stored_value section_name key,
    get_value_complete p section_name key can_throw h_complete, ?_, ?_⟩
  · constructor
    · intro h
      unfold Parser.stored_value at h
      cases hs : map_find p.m_sections section_name with
      | none => exact Or.inl ((map_find_eq_none_iff _ _).mp hs)
      | some sec =>
        rw [hs] at h
        exact Or.inr ⟨sec, mem_of_map_find _ _ _ hs, (map_find_eq_none_iff _ _).mp h⟩
    · intro h
      unfold Parser.stored_value
      rcases h with h | ⟨sec, hmem, hkey⟩
      · rw [(map_find_eq_none_iff _ _).mpr h]
      · rw [map_find_of_mem _ _ _ h_unique.1 hmem]
        exact (map_find_eq_none_iff _ _).mpr hkey
  · intro sec value hsec hval
    unfold Parser.stored_value
    rw [map_find_of_mem _ _ _ h_unique.1 hsec]
    exact map_find_of_mem _ _ _ (h_unique.2 _ hsec) hval

/-- On the sample document both hypotheses of C2 hold, and looking up
`("A", "y")` gives the stored value. -/
theorem get_value_after_parse_witness :
    sampleDocument.m_parsing_is_complete = true ∧ sampleDocument.unique_keys ∧
      ∃ r, sampleDocument.get_value "A" "y" CanThrow.Yes = Except.ok r ∧
        (r = none ↔
          ("A" ∉ map_keys sampleDocument.m_sections ∨
            ∃ sec, ("A", sec) ∈ sampleDocument.m_sections ∧
              "y" ∉ map_keys sec.key_value_pairs)) ∧
        (∀ sec value, ("A", sec) ∈ sampleDocument.m_sections →
          ("y", value) ∈ sec.key_value_pairs → r = some value) :=
  ⟨rfl, by decide,
    get_value_after_parse sampleDocument "A" "y" CanThrow.Yes rfl (by decide)⟩

/-- C3: for each of String, Int64, Float and Bool, and in every parser state,
the defaulting accessor never raises: it returns the conversion of the stored
value (read through `get_ref`, as the code does) when parsing is complete, the
value is present and its validity predicate holds, and exactly the default
when parsing is incomplete, the section or the key is absent, or the
predicate is false. -/
theorem defaulting_accessors_contract {V F : Type} (api : ValueApi V F) (p : Parser V)
    (section_name key : StringType)
    (default_string : StringType) (default_int64 : Int) (default_float : F)
    (default_bool : Bool) :
    defaulting_contract p section_name key
        (fun value => api.is_valid_string (api.get_ref value))
        (fun value => api.get_string_value (api.get_ref value)) default_string
        (p.get_string_default api section_name key default_string) ∧
      defaulting_contract p section_name key
        (fun value => api.is_valid_int64 (api.get_ref value))
        (fun value => api.get_int64_value (api.get_ref value)) default_int64
        (p.get_int64_default api section_name key default_int64) ∧
      defaulting_contract p section_name key
        (fun value => api.is_valid_float (api.get_ref value))
        (fun value => api.get_float_value (api.get_ref value)) default_float
        (p.get_float_default api section_name key default_float) ∧
      defaulting_contract p section_name key
        (fun value => api.is_valid_bool (api.get_ref value))
        (fun value => api.get_bool_value (api.get_ref value)) default_bool
        (p.get_bool_default api section_name key default_bool) := by
  refine ⟨?_, ?_, ?_, ?_⟩ <;> apply defaulting_contract_intro
  · exact defaulting_shape p section_name key
      (fun value => api.is_valid_string (api.get_ref value))
      (fun value => api.get_string_value (api.get_ref value)) default_string
  · exact defaulting_shape p section_name key
      (fun value => api.is_valid_int64 (api.get_ref value))
      (fun value => api.get_int64_value (api.get_ref value)) default_int64
  · exact defaulting_shape p section_name key
      (fun value => api.is_valid_float (api.get_ref value))
      (fun value => api.get_float_value (api.get_ref value)) default_float
  · exact defaulting_shape p section_name key
      (fun value => api.is_valid_bool (api.get_ref value))
      (fun value => api.get_bool_value (api.get_ref value)) default_bool

/-- The sample document has `x = 1` in section `A`: the defaulting `get_int64`
returns 1 there, as C3 says it must. -/
theorem defaulting_accessors_contract_witness :
    sampleDocument.get_int64_default textValueApi "A" "x" 0 = Except.ok 1 ∧
      defaulting_contract sampleDocument "A" "x"
        (fun value => textValueApi.is_valid_int64 (textValueApi.get_ref value))
        (fun value => textValueApi.get_int64_value (textValueApi.get_ref value)) 0
        (sampleDocument.get_int64_default textValueApi "A" "x" 0) :=
  ⟨rfl, (defaulting_accessors_contract textValueApi sampleDocument "A" "x" "" 0 0 false).2.1⟩

/-- C4: on a parsed document and for each of String, Int64, Float and Bool,
the throwing accessor raises the value-not-found error exactly when
`get_value` reports absent, raises the type-mismatch error exactly when the
value is present and its validity predicate (read through `get_ref`) is
false, and otherwise returns the conversion of the stored value; the two
errors are different, and nothing is returned when the predicate is false. -/
theorem throwing_accessors_contract {V F : Type} (api : ValueApi V F) (p : Parser V)
    (section_name key : StringType) (h_complete : p.m_parsing_is_complete = true) :
    throwing_contract p section_name key
        (fun value => api.is_valid_string (api.get_ref value))
        (fun value => api.get_string_value (api.get_ref value))
        msg_get_string_not_found msg_get_string_mismatch
        (p.get_string api section_name key) ∧
      throwing_contract p section_name key
        (fun value => api.is_valid_int64 (api.get_ref value))
        (fun value => api.get_int64_value (api.get_ref value))
        msg_get_int64_not_found msg_get_int64_mismatch
        (p.get_int64 api section_name key) ∧
      throwing_contract p section_name key
        (fun value => api.is_valid_float (api.get_ref value))
        (fun value => api.get_float_value (api.get_ref value))
        msg_get_float_not_found msg_get_float_mismatch
        (p.get_float api section_name key) ∧
      throwing_contract p section_name key
        (fun value => api.is_valid_bool (api.get_ref value))
        (fun value => api.get_bool_value (api.get_ref value))
        msg_get_bool_not_found msg_get_bool_mismatch
        (p.get_bool api section_name key) := by
  refine ⟨?_, ?_, ?_, ?_⟩
  · exact throwing_shape p section_name key
      (fun value => api.is_valid_string (api.get_ref value))
      (fun value => api.get_string_value (api.get_ref value)) _ _ h_complete (by decide)
  · exact throwing_shape p section_name key
      (fun value => api.is_valid_int64 (api.get_ref value))
      (fun value => api.get_int64_value (api.get_ref value)) _ _ h_complete (by decide)
  · exact throwing_shape p section_name key
      (fun value => api.is_valid_float (api.get_ref value))
      (fun value => api.get_float_value (api.get_ref value)) _ _ h_complete (by decide)
  · exact throwing_shape p section_name key
      (fun value => api.is_valid_bool (api.get_ref value))
      (fun value => api.get_bool_value (api.get_ref value)) _ _ h_complete (by decide)

/-- On the sample document, where `y = hello` in section `A`, the throwing
`get_bool` raises the type-mismatch error and C4 holds of it. -/
theorem throwing_accessors_contract_witness :
    sampleDocument.m_parsing_is_complete = true ∧
      sampleDocument.get_bool textValueApi "A" "y" = Except.error msg_get_bool_mismatch ∧
      throwing_contract sampleDocument "A" "y"
        (fun value => textValueApi.is_valid_bool (textValueApi.get_ref value))
        (fun value => textValueApi.get_bool_value (textValueApi.get_ref value))
        msg_get_bool_not_found msg_get_bool_mismatch
        (sampleDocument.get_bool textValueApi "A" "y") :=
  ⟨rfl, rfl, (throwing_accessors_contract textValueApi sampleDocument "A" "y" rfl).2.2.2⟩

/-- C5: on a parser whose parse has not completed, each throwing accessor
(String, Int64, Float, Bool) raises the not-yet-parsed error of `get_value`,
which is none of the value-not-found and type-mismatch errors. -/
theorem throwing_accessors_before_parse {V F : Type} (api : ValueApi V F) (p : Parser V)
    (section_name key : StringType) (h_incomplete : p.m_parsing_is_complete = false) :
    p.get_string api section_name key = Except.error msg_not_yet_parsed ∧
      p.get_int64 api section_name key = Except.error msg_not_yet_parsed ∧
      p.get_float api section_name key = Except.error msg_not_yet_parsed ∧
      p.get_bool api section_name key = Except.error msg_not_yet_parsed ∧
      msg_not_yet_parsed ∉
        [msg_get_string_not_found, msg_get_string_mismatch,
         msg_get_int64_not_found, msg_get_int64_mismatch,
         msg_get_float_not_found, msg_get_float_mismatch,
         msg_get_bool_not_found, msg_get_bool_mismatch] := by
  have hv : p.get_value section_name key get_value_default_can_throw
      = Except.error msg_not_yet_parsed := by
    simp [Parser.get_value, h_incomplete, get_value_default_can_throw]
  refine ⟨?_, ?_, ?_, ?_, by decide⟩
  · unfold Parser.get_string
    rw [hv]
    rfl
  · unfold Parser.get_int64
    rw [hv]
    rfl
  · unfold Parser.get_float
    rw [hv]
    rfl
  · unfold Parser.get_bool
    rw [hv]
    rfl

/-- A freshly constructed parser has not parsed: asking it for the integer
`("A", "x")` raises the not-yet-parsed error. -/
theorem throwing_accessors_before_parse_witness :
    (Parser.constructed TextValue).m_parsing_is_complete = false ∧
      (Parser.constructed TextValue).get_int64 textValueApi "A" "x"
        = Except.error msg_not_yet_parsed :=
  ⟨rfl, (throwing_accessors_before_parse textValueApi (Parser.constructed TextValue)
    "A" "x" rfl).2.1⟩

/-- C6: on a parsed document holding a value under `(section, key)`, and given
the `Value` contract that `is_valid_string` is always true and
`get_string_value` is the raw text, the defaulting `get_string` returns that
raw text for every default, the throwing `get_string` returns the same text,
and the throwing form does not raise the type-mismatch error. The text is
that of `value.get_ref()`, the value the code converts. -/
theorem get_string_returns_raw_text {V F : Type} (api : ValueApi V F)
    (raw : V → StringType) (p : Parser V) (section_name key : StringType) (value : V)
    (default_value : StringType)
    (h_complete : p.m_parsing_is_complete = true)
    (h_present : p.stored_value section_name key = some value)
    (h_valid : ∀ v, api.is_valid_string v = true)
    (h_raw : ∀ v, api.get_string_value v = raw v) :
    p.get_string_default api section_name key default_value
        = Except.ok (raw (api.get_ref value)) ∧
      p.get_string api section_name key = Except.ok (raw (api.get_ref value)) ∧
      p.get_string api section_name key ≠ Except.error msg_get_string_mismatch := by
  have h1 : p.get_string_default api section_name key default_value
      = Except.ok (raw (api.get_ref value)) := by
    unfold Parser.get_string_default
    rw [get_value_complete p section_name key _ h_complete, h_present]
    simp [bind, Except.bind, pure, Except.pure, h_valid, h_raw]
  have h2 : p.get_string api section_name key = Except.ok (raw (api.get_ref value)) := by
    unfold Parser.get_string
    rw [get_value_complete p section_name key _ h_complete, h_present]
    simp [bind, Except.bind, pure, Except.pure, h_valid, h_raw]
  refine ⟨h1, h2, ?_⟩
  rw [h2]
  simp

/-- On the sample document, `("A", "y")` holds the text `hello`; both forms of
`get_string` return it, whatever the default. -/
theorem get_string_returns_raw_text_witness :
    sampleDocument.get_string_default textValueApi "A" "y" "fallback" = Except.ok "hello" ∧
      sampleDocument.get_string textValueApi "A" "y" = Except.ok "hello" ∧
      sampleDocument.get_string textValueApi "A" "y"
        ≠ Except.error msg_get_string_mismatch :=
  get_string_returns_raw_text textValueApi (fun v => v.raw) sampleDocument "A" "y"
    ⟨"hello", none, none, none⟩ "fallback" rfl rfl (fun _ => rfl) (fun _ => rfl)

/-- C7: `get_ordered_list` returns the same `List` as `get_list`, in every
parser state and for every section name: the same backing section, or the
same absence of one, with its pairs in the same order. -/
theorem get_ordered_list_eq_get_list {V : Type} (p : Parser V)
    (section_name : StringType) :
    p.get_ordered_list section_name = p.get_list section_name ∧
      (p.get_ordered_list section_name).m_section = (p.get_list section_name).m_section ∧
      (∀ sec, (p.get_list section_name).m_section = some sec →
        ∃ sec_ordered, (p.get_ordered_list section_name).m_section = some sec_ordered ∧
          sec_ordered.key_value_pairs = sec.key_value_pairs) := by
  refine ⟨rfl, rfl, ?_⟩
  intro sec h
  exact ⟨sec, h, rfl⟩

/-- C8: `get_list` is total; the handle it returns holds no backing section
exactly when the name is not a key of the section map, and otherwise is backed
by the section stored under the name; on a parser that has never parsed it is
the empty handle for every name. -/
theorem get_list_backing_section {V : Type} (p : Parser V) (section_name : StringType) :
    ((p.get_list section_name).m_section = none ↔
        section_name ∉ map_keys p.m_sections) ∧
      (section_name ∈ map_keys p.m_sections →
        ∃ sec, (section_name, sec) ∈ p.m_sections ∧
          p.get_list section_name = IniList.mk (some sec)) ∧
      ((map_keys p.m_sections).Nodup → ∀ sec, (section_name, sec) ∈ p.m_sections →
        p.get_list section_name = IniList.mk (some sec)) ∧
      (Parser.constructed V).get_list section_name = IniList.mk none := by
  refine ⟨?_, ?_, ?_, rfl⟩
  · unfold Parser.get_list
    cases h : map_find p.m_sections section_name with
    | none => simpa using (map_find_eq_none_iff _ _).mp h
    | some sec =>
      have hmem : section_name ∈ map_keys p.m_sections := by
        by_contra hc
        rw [(map_find_eq_none_iff _ _).mpr hc] at h
        cases h
      simpa using hmem
  · intro hmem
    unfold Parser.get_list
    cases h : map_find p.m_sections section_name with
    | none => exact absurd hmem ((map_find_eq_none_iff _ _).mp h)
    | some sec => exact ⟨sec, mem_of_map_find _ _ _ h, rfl⟩
  · intro hnd sec hmem
    unfold Parser.get_list
    rw [map_find_of_mem _ _ _ hnd hmem]

/-- On the sample document the name `A` is a key of the section map, the keys
are unique, and `get_list` hands back the section stored under `A`. -/
theorem get_list_backing_section_witness :
    "A" ∈ map_keys sampleDocument.m_sections ∧
      (map_keys sampleDocument.m_sections).Nodup ∧
      (∃ sec, ("A", sec) ∈ sampleDocument.m_sections ∧
        sampleDocument.get_list "A" = IniList.mk (some sec)) ∧
      ((sampleDocument.get_list "B").m_section = none ↔
        "B" ∉ map_keys sampleDocument.m_sections) :=
  ⟨by decide, by decide,
    (get_list_backing_section sampleDocument "A").2.1 (by decide),
    (get_list_backing_section sampleDocument "B").1⟩

/-- C9: the table built by `create_available_tokens_for_tokenizer` registers
exactly eight identifiers, in the order CarriageReturn, NewLine, Space,
Characters (empty pattern), Equals, ClosingSquareBracket,
OpeningSquareBracket, SemiColon, each with its pattern; EndOfFile is not
registered and is the end-of-file token of the table. -/
theorem available_tokens_registration_order :
    Parser.create_available_tokens_for_tokenizer.m_tokens.map
        (fun token => (token.m_type, token.m_identifier))
      = [(IniTokenType.CarriageReturn, "\r"), (IniTokenType.NewLine, "\n"),
         (IniTokenType.Space, " "), (IniTokenType.Characters, ""),
         (IniTokenType.Equals, "="), (IniTokenType.ClosingSquareBracket, "]"),
         (IniTokenType.OpeningSquareBracket, "["), (IniTokenType.SemiColon, ";")] ∧
      Parser.create_available_tokens_for_tokenizer.m_tokens.length = 8 ∧
      IniTokenType.EndOfFile ∉
        Parser.create_available_tokens_for_tokenizer.m_tokens.map Token.m_type ∧
      Parser.create_available_tokens_for_tokenizer.m_eof_token
        = some IniTokenType.EndOfFile := by
  refine ⟨rfl, rfl, by decide, rfl⟩

/-- C10: in the table built by `create_available_tokens_for_tokenizer` exactly
one identifier has an empty pattern and exactly one carries data, both being
the Characters identifier; every other identifier has a pattern of exactly one
character and carries no data. -/
theorem available_tokens_catch_all :
    Parser.create_available_tokens_for_tokenizer.m_tokens.countP
        (fun token => token.m_identifier = "") = 1 ∧
      Parser.create_available_tokens_for_tokenizer.m_tokens.countP
        (fun token => token.m_has_data = HasData.Yes) = 1 ∧
      (∀ token ∈ Parser.create_available_tokens_for_tokenizer.m_tokens,
        (token.m_identifier = "" ↔ token.m_type = IniTokenType.Characters) ∧
        (token.m_has_data = HasData.Yes ↔ token.m_type = IniTokenType.Characters) ∧
        (token.m_type ≠ IniTokenType.Characters →
          token.m_identifier.length = 1 ∧ token.m_has_data = HasData.No)) := by
  refine ⟨by decide, by decide, by decide⟩

/-- C11: `parsing_is_complete` is monotonic over every sequence of facade
operations (both overloads of `parse`, `get_value`, the list accessors and the
eight typed accessors, whether they succeed or fail): it starts false, a parse
call that completes sets it to true, and once it is true no operation and no
further sequence of operations makes it false again. -/
theorem parsing_is_complete_monotonic {V F : Type} (c : Collaborators V)
    (api : ValueApi V F) :
    (Parser.constructed V).m_parsing_is_complete = false ∧
      (∀ (p : Parser V) (input : StringType), (p.parse c input).1 = Except.ok () →
        (p.parse c input).2.m_parsing_is_complete = true) ∧
      (∀ (p : Parser V) (file : FileHandle), (p.parse_file c file).1 = Except.ok () →
        (p.parse_file c file).2.m_parsing_is_complete = true) ∧
      (∀ (p : Parser V) (op : FacadeOp F), p.m_parsing_is_complete = true →
        (p.exec c api op).2.m_parsing_is_complete = true) ∧
      (∀ (p : Parser V) (ops later : List (FacadeOp F)),
        (Parser.exec_all c api p ops).m_parsing_is_complete = true →
        (Parser.exec_all c api p (ops ++ later)).m_parsing_is_complete = true) := by
  refine ⟨rfl, ?_, ?_, ?_, ?_⟩
  · intro p input h
    rcases parse_internal_outcome c p input with ⟨e, _, h1, _⟩ | ⟨_, _, h2⟩
    · have h3 : (p.parse_internal c input).1 = Except.ok () := h
      rw [h1] at h3
      cases h3
    · exact h2
  · intro p file h
    unfold Parser.parse_file at h ⊢
    cases hr : file.read_all with
    | error e =>
      rw [hr] at h
      cases h
    | ok input =>
      rw [hr] at h
      rcases parse_internal_outcome c p input with ⟨e, _, h1, _⟩ | ⟨_, _, h2⟩
      · have h3 : (p.parse_internal c input).1 = Except.ok () := h
        rw [h1] at h3
        cases h3
      · exact h2
  · intro p op h
    exact exec_keeps_complete c api p op h
  · intro p ops later h
    rw [exec_all_append]
    exact exec_all_keeps_complete c api later _ h

/-- From a fresh parser, a parse of a well-formed text sets the flag; a failed
parse, a throwing query and an unreadable file that follow leave it set. -/
theorem parsing_is_complete_monotonic_witness :
    (Parser.exec_all specCollaborators rawTextApi (Parser.constructed StringType)
        [FacadeOp.parse_text "[A]\nx=1\n"]).m_parsing_is_complete = true ∧
      (Parser.exec_all specCollaborators rawTextApi (Parser.constructed StringType)
        ([FacadeOp.parse_text "[A]\nx=1\n"] ++
          [FacadeOp.parse_text "[A", FacadeOp.query (Query.get_int64 "A" "x"),
           FacadeOp.parse_file ⟨Except.error "unreadable"⟩])).m_parsing_is_complete = true :=
  ⟨rfl, (parsing_is_complete_monotonic specCollaborators rawTextApi).2.2.2.2
    (Parser.constructed StringType) [FacadeOp.parse_text "[A]\nx=1\n"] _ rfl⟩

/-- C12, the claim as stated fails: a parser that has completed a parse of
"[A]", "x=1" is then given the text "[A", whose header is never closed; the
structural step fails with `MalformedSyntax`, and `parsing_is_complete` is
true after the call. -/
theorem failed_parse_after_completed_parse :
    ((Parser.constructed StringType).parse specCollaborators "[A]\nx=1\n").2
        = ⟨[("A", ⟨[("x", "1")]⟩)], true⟩ ∧
      (specCollaborators.token_parser_parse
        (specCollaborators.tokenize Parser.create_available_tokens_for_tokenizer "[A") "[A"
        [("A", ⟨[("x", "1")]⟩)]).1 = Except.error msg_malformed_syntax ∧
      ((Parser.mk [("A", ⟨[("x", "1")]⟩)] true).parse specCollaborators "[A").1
        = Except.error msg_malformed_syntax ∧
      ((Parser.mk [("A", ⟨[("x", "1")]⟩)] true).parse specCollaborators
        "[A").2.m_parsing_is_complete = true :=
  ⟨rfl, rfl, rfl, rfl⟩

/-- C12, amended: if the structural parsing step fails during a parse call,
the call fails with the same error and leaves `parsing_is_complete` as it was
before the call; so after a failed parse the flag is false whenever it was
false before, and a failed parse never sets it. The same holds for the parse
from a file whose text was read. -/
theorem failed_parse_keeps_flag {V : Type} (c : Collaborators V) (p : Parser V)
    (input : StringType) (e : String)
    (h_fails : (c.token_parser_parse
      (c.tokenize Parser.create_available_tokens_for_tokenizer input) input
      p.m_sections).1 = Except.error e) :
    (p.parse c input).1 = Except.error e ∧
      (p.parse c input).2.m_parsing_is_complete = p.m_parsing_is_complete ∧
      (p.m_parsing_is_complete = false →
        (p.parse c input).2.m_parsing_is_complete = false) ∧
      (p.parse_file c ⟨Except.ok input⟩).2.m_parsing_is_complete
        = p.m_parsing_is_complete := by
  have key : (p.parse_internal c input).1 = Except.error e ∧
      (p.parse_internal c input).2.m_parsing_is_complete = p.m_parsing_is_complete := by
    rcases parse_internal_outcome c p input with ⟨e2, h1, h2, h3⟩ | ⟨h1, _, _⟩
    · rw [h_fails] at h1
      cases h1
      exact ⟨h2, h3⟩
    · rw [h_fails] at h1
      cases h1
  refine ⟨key.1, key.2, ?_, key.2⟩
  intro h
  exact key.2.trans h

/-- On a fresh parser the text "[A" fails in the structural step, and the flag
is false after the call, as it was before. -/
theorem failed_parse_keeps_flag_witness :
    ((Parser.constructed StringType).parse specCollaborators "[A").1
        = Except.error msg_malformed_syntax ∧
      ((Parser.constructed StringType).parse specCollaborators "[A").2.m_parsing_is_complete
        = false :=
  ⟨(failed_parse_keeps_flag specCollaborators (Parser.constructed StringType) "[A"
      msg_malformed_syntax rfl).1,
    (failed_parse_keeps_flag specCollaborators (Parser.constructed StringType) "[A"
      msg_malformed_syntax rfl).2.1⟩

/-- C13: every query operation (`get_value` with either `can_throw`, the two
list accessors, and the defaulting and throwing typed accessors) leaves the
section map and the `parsing_is_complete` flag as they were, whatever its
outcome: a value, the default, absent or an error. -/
theorem queries_leave_parser_unchanged {V F : Type} (c : Collaborators V)
    (api : ValueApi V F) (p : Parser V) (q : Query F) :
    (p.run_query api q).2 = p ∧
      (p.exec c api (FacadeOp.query q)).2.m_sections = p.m_sections ∧
      (p.exec c api (FacadeOp.query q)).2.m_parsing_is_complete
        = p.m_parsing_is_complete := by
  cases q <;> exact ⟨rfl, rfl, rfl⟩

/-- C14: for each of String, Int64, Float and Bool, in every parser state and
for every section and key, the defaulting accessor is the throwing accessor
with every error replaced by the default: a value the throwing form returns is
returned by the defaulting form for every default, and where the throwing form
raises an error the defaulting form returns exactly the default. -/
theorem defaulting_refines_throwing {V F : Type} (api : ValueApi V F) (p : Parser V)
    (section_name key : StringType) :
    replaces_errors_by_default (p.get_string api section_name key)
        (fun default_value => p.get_string_default api section_name key default_value) ∧
      replaces_errors_by_default (p.get_int64 api section_name key)
        (fun default_value => p.get_int64_default api section_name key default_value) ∧
      replaces_errors_by_default (p.get_float api section_name key)
        (fun default_value => p.get_float_default api section_name key default_value) ∧
      replaces_errors_by_default (p.get_bool api section_name key)
        (fun default_value => p.get_bool_default api section_name key default_value) := by
  refine ⟨?_, ?_, ?_, ?_⟩
  · exact accessor_shapes_agree p section_name key
      (fun value => api.is_valid_string (api.get_ref value))
      (fun value => api.get_string_value (api.get_ref value)) _ _
  · exact accessor_shapes_agree p section_name key
      (fun value => api.is_valid_int64 (api.get_ref value))
      (fun value => api.get_int64_value (api.get_ref value)) _ _
  · exact accessor_shapes_agree p section_name key
      (fun value => api.is_valid_float (api.get_ref value))
      (fun value => api.get_float_value (api.get_ref value)) _ _
  · exact accessor_shapes_agree p section_name key
      (fun value => api.is_valid_bool (api.get_ref value))
      (fun value => api.get_bool_value (api.get_ref value)) _ _

/-- On the sample document the throwing `get_int64` returns 1 for `("A", "x")`
and so does the defaulting form with default 7; the throwing `get_bool` raises
an error for `("A", "y")` and the defaulting form returns its default. -/
theorem defaulting_refines_throwing_witness :
    sampleDocument.get_int64 textValueApi "A" "x" = Except.ok 1 ∧
      sampleDocument.get_int64_default textValueApi "A" "x" 7 = Except.ok 1 ∧
      sampleDocument.get_bool textValueApi "A" "y" = Except.error msg_get_bool_mismatch ∧
      sampleDocument.get_bool_default textValueApi "A" "y" true = Except.ok true :=
  ⟨rfl,
    (defaulting_refines_throwing textValueApi sampleDocument "A" "x").2.1.1 1 rfl 7,
    rfl,
    (defaulting_refines_throwing textValueApi sampleDocument "A" "y").2.2.2.2
      msg_get_bool_mismatch rfl true⟩

/-- C15, the code at the failing input: on the sample document the throwing
`get_bool` of the missing key `("A", "missing")` raises a message that begins
with the tag of `get_int64` and not with its own tag, while the seven other
messages of the throwing accessors begin with the tag of their accessor. -/
theorem get_bool_not_found_tag :
    sampleDocument.get_bool textValueApi "A" "missing"
        = Except.error msg_get_bool_not_found ∧
      begins_with "[Ini::get_bool]" msg_get_bool_not_found = false ∧
      begins_with "[Ini::get_int64]" msg_get_bool_not_found = true ∧
      begins_with "[Ini::get_bool]" msg_get_bool_mismatch = true ∧
      begins_with "[Ini::get_string]" msg_get_string_not_found = true ∧
      begins_with "[Ini::get_string]" msg_get_string_mismatch = true ∧
      begins_with "[Ini::get_int64]" msg_get_int64_not_found = true ∧
      begins_with "[Ini::get_int64]" msg_get_int64_mismatch = true ∧
      begins_with "[Ini::get_float]" msg_get_float_not_found = true ∧
      begins_with "[Ini::get_float]" msg_get_float_mismatch = true := by
  refine ⟨rfl, ?_, ?_, ?_, ?_, ?_, ?_, ?_, ?_, ?_⟩ <;> decide

end Ini
